import Mathlib

/-!
# Reboot controller and reboot agent

A shallow embedding of `reboot-controller/main.go` and `reboot-agent/main.go`.

* A Go `map[string]string` is an association list read through `goMapGet`;
  a nil map is `none`, a map value is `some kvs`.
* The node lister (the controller's mirror) is the list of cached nodes; `Get`
  finds a node by its name, `List` returns all of them.
* The API client is the function `client : Node → GoError` giving the outcome of
  `Nodes().Update` on the submitted record.  Every `Update` call is recorded in
  the trace returned next to the result.
* Go `int` counters are `Nat`: the only counter is bounded by the total number
  of status conditions held in memory, so it cannot wrap.
-/

namespace RebootController

/-! ## Data model -/

deriving instance DecidableEq for Except

/-- Go `error`: `none` is `nil`. -/
abbrev GoError := Option String

/-- The entries of a non-nil Go `map[string]string`. -/
abbrev GoMap := List (String × String)

/-- Read `m[k]` with the comma-ok form: `some v` when the key is present. -/
def goMapGet : GoMap → String → Option String
  | [], _ => none
  | (k', v) :: rest, k => if k' = k then some v else goMapGet rest k

/-- Go `delete(m, k)`. -/
def goMapDelete : GoMap → String → GoMap
  | [], _ => []
  | (k', v) :: rest, k => if k' = k then goMapDelete rest k else (k', v) :: goMapDelete rest k

/-- Go `m[k] = v` on a non-nil map. -/
def goMapSet (m : GoMap) (k v : String) : GoMap :=
  (k, v) :: goMapDelete m k

/-- A `v1.NodeCondition`, reduced to the two fields the controller reads. -/
structure NodeCondition where
  type : String
  status : String
  deriving DecidableEq, Repr

/-- A `v1.Node`, reduced to the fields the two programs read or write. -/
structure Node where
  name : String
  annotations : Option GoMap
  conditions : List NodeCondition
  deriving DecidableEq, Repr

/-- The constant `v1.NodeReady`. -/
def NodeReady : String := "Ready"

/-- The constant `v1.ConditionFalse`. -/
def ConditionFalse : String := "False"

/-- Modelled from the spec: the constant `common.AnnoRebootRequested` of the
`common` package, whose literal the spec gives as `reboot-requested`. -/
def AnnoRebootRequested : String := "reboot-requested"

/-- Modelled from the spec: the constant `common.AnnoRebootNow` of the `common`
package, whose literal the spec gives as `reboot-now`. -/
def AnnoRebootNow : String := "reboot-now"

/-- Modelled from the spec: the constant `common.AnnoRebootInProgress` of the
`common` package, whose literal the spec gives as `reboot-in-progress`. -/
def AnnoRebootInProgress : String := "reboot-in-progress"

/-- Modelled from the spec: the helper `common.CopyObjToNode` of the `common`
package, which the spec describes as cloning the record.  On a node it
returns an equal copy and no error. -/
def CopyObjToNode (obj : Node) : Except String Node :=
  .ok obj

/-- The read `v, ok := n.Annotations[k]`; a nil map has no key. -/
def annotationGet (n : Node) (k : String) : Option String :=
  match n.annotations with
  | none => none
  | some m => goMapGet m k

/-- The comma-ok read `_, ok := n.Annotations[k]`. -/
def annotationPresent (n : Node) (k : String) : Bool :=
  (annotationGet n k).isSome

/-- Go `delete(n.Annotations, k)`; deleting from a nil map does nothing. -/
def annotationDelete (n : Node) (k : String) : Node :=
  { n with annotations := n.annotations.map (fun m => goMapDelete m k) }

/-- Go `n.Annotations[k] = v`; `none` is the run-time panic of an assignment to
an entry of a nil map. -/
def annotationSet (n : Node) (k v : String) : Option Node :=
  match n.annotations with
  | none => none
  | some m => some { n with annotations := some (goMapSet m k v) }

/-! ## The controller (`reboot-controller/main.go`) -/

/-- The constant `maxUnavailable`. -/
def maxUnavailable : Nat := 1

/-- The `nodeLister.Get(key)` call of the client library: the cached node of
that name, or its not-found error (the only error it has). -/
def listerGet : List Node → String → Except String Node
  | [], _ => .error "not found"
  | n :: rest, key => if n.name = key then .ok n else listerGet rest key

/-- The `nodeLister.List(labels.Everything())` call of the client library: all
cached nodes; listing a cache does not fail. -/
def listerList (nodes : List Node) : Except String (List Node) :=
  .ok nodes

/-- The function `nodeIsRebooting`. -/
def nodeIsRebooting (n : Node) : Bool :=
  match n.annotations with
  | none => false
  | some m =>
    if (goMapGet m AnnoRebootInProgress).isSome then true
    else (goMapGet m AnnoRebootNow).isSome

/-- The inner loop of `unavailableNodeCount` over the conditions of one node. -/
def countConditions : List NodeCondition → Nat → Nat
  | [], unavailable => unavailable
  | c :: rest, unavailable =>
    if c.type = NodeReady ∧ c.status = ConditionFalse then countConditions rest (unavailable + 1)
    else countConditions rest unavailable

/-- The outer loop of `unavailableNodeCount` over the listed nodes. -/
def countNodes : List Node → Nat → Nat
  | [], unavailable => unavailable
  | n :: rest, unavailable =>
    if nodeIsRebooting n then countNodes rest (unavailable + 1)
    else countNodes rest (countConditions n.conditions unavailable)

/-- The method `rebootController.unavailableNodeCount`. -/
def unavailableNodeCount (nodeLister : List Node) : Except String Nat :=
  match listerList nodeLister with
  | .error err => .error err
  | .ok nodes => .ok (countNodes nodes 0)

/-- The errors `process` builds with `fmt.Errorf`, one constructor per call
site, carrying the values the message is formatted from. -/
inductive ProcessError where
  | retrieveFailed (key : String) (cause : String)
  | countFailed (cause : String)
  | tooManyUnavailable (unavailable : Nat) (max : Nat) (name : String)
  | copyFailed (cause : String)
  | updateFailed (cause : String)
  deriving DecidableEq, Repr

/-- How a call of `process` ends: it returns its `error` value (`none` is
`nil`), or it panics. -/
inductive ProcessResult where
  | returned (err : Option ProcessError)
  | panicked
  deriving DecidableEq, Repr

/-- The method `rebootController.process`.  The second component lists the
records passed to `Nodes().Update`, in call order. -/
def process (nodeLister : List Node) (client : Node → GoError) (key : String) :
    ProcessResult × List Node :=
  match listerGet nodeLister key with
  | .error err => (.returned (some (.retrieveFailed key err)), [])
  | .ok node =>
    match node.annotations with
    | none => (.returned none, [])
    | some annotations =>
      if (goMapGet annotations AnnoRebootRequested).isNone then (.returned none, [])
      else
        match unavailableNodeCount nodeLister with
        | .error err => (.returned (some (.countFailed err)), [])
        | .ok unavailable =>
          if unavailable ≥ maxUnavailable then
            (.returned (some (.tooManyUnavailable unavailable maxUnavailable node.name)), [])
          else
            match CopyObjToNode node with
            | .error err => (.returned (some (.copyFailed err)), [])
            | .ok nodeCopy =>
              match annotationSet nodeCopy AnnoRebootNow "" with
              | none => (.panicked, [])
              | some nodeCopy =>
                match client nodeCopy with
                | some err => (.returned (some (.updateFailed err)), [nodeCopy])
                | none => (.returned none, [nodeCopy])

/-- The calls `handleErr` makes on the work queue. -/
inductive QueueCall where
  | forget (key : String)
  | addRateLimited (key : String)
  deriving DecidableEq, Repr

/-- The rate-limited work queue as `handleErr` sees it: the per-key requeue
counter read by `NumRequeues`, and the log of calls made so far. -/
structure Queue where
  numRequeues : String → Nat
  calls : List QueueCall

/-- The queue call `Forget(key)`: the key's requeue counter goes back to 0. -/
def Queue.Forget (q : Queue) (key : String) : Queue :=
  { numRequeues := fun k => if k = key then 0 else q.numRequeues k,
    calls := q.calls ++ [.forget key] }

/-- The queue call `AddRateLimited(key)`: the key's requeue counter goes up by
one and the key is queued again. -/
def Queue.AddRateLimited (q : Queue) (key : String) : Queue :=
  { numRequeues := fun k => if k = key then q.numRequeues k + 1 else q.numRequeues k,
    calls := q.calls ++ [.addRateLimited key] }

/-- A queue with no requeue history and no call made. -/
def Queue.fresh : Queue :=
  { numRequeues := fun _ => 0, calls := [] }

/-- The method `rebootController.handleErr`. -/
def handleErr (q : Queue) (err : Option ProcessError) (key : String) : Queue :=
  match err with
  | none => q.Forget key
  | some _ =>
    if q.numRequeues key < 5 then q.AddRateLimited key
    else q.Forget key

/-- Run `handleErr` on `attempts` consecutive failed reconciles of `key`,
the `i`-th of which failed with `errs i`. -/
def failedAttempts (errs : Nat → ProcessError) (key : String) : Nat → Queue → Queue
  | 0, q => q
  | attempts + 1, q =>
    handleErr (failedAttempts errs key attempts q) (some (errs attempts)) key

/-- The cache store replacing the entry of `key` by a new record. -/
def mirrorReplace : List Node → String → Node → List Node
  | [], _, _ => []
  | n :: rest, key, new => if n.name = key then new :: rest else n :: mirrorReplace rest key new

/-- What one listed node adds to the counter of `unavailableNodeCount`: one
pass of the body of its outer loop, started at 0. -/
def nodeContribution (n : Node) : Nat :=
  countNodes [n] 0

/-- The spec's ready-condition test: the node has a Ready condition whose
status is False. -/
def readyConditionFalse (n : Node) : Bool :=
  n.conditions.any (fun c => c.type = NodeReady ∧ c.status = ConditionFalse)

/-- The spec's unavailable machine: `reboot-in-progress` present, or
`reboot-now` present, or the ready condition false. -/
def specUnavailable (n : Node) : Bool :=
  annotationPresent n AnnoRebootInProgress || annotationPresent n AnnoRebootNow ||
    readyConditionFalse n

/-- The spec's unavailable count: the number of machines of the mirror that
are unavailable. -/
def specUnavailableCount (nodes : List Node) : Nat :=
  (nodes.filter specUnavailable).length

end RebootController

namespace RebootAgent

open RebootController

/-! ## The agent (`reboot-agent/main.go`) -/

/-- What `handleUpdate` does that is visible outside it: an `Update` call with
the submitted record, reaching the reboot point, or a run-time panic. -/
inductive Event where
  | update (node : Node)
  | reboot
  | panic
  deriving DecidableEq, Repr

/-- The function `shouldReboot`. -/
def shouldReboot (node : Node) : Bool :=
  annotationPresent node AnnoRebootNow

/-- The function `rebootInProgress`. -/
def rebootInProgress (node : Node) : Bool :=
  annotationPresent node AnnoRebootInProgress

/-- The method `rebootAgent.handleUpdate`, as the trace of its events; the old
object is not read. -/
def handleUpdate (client : Node → GoError) (_oldObj newObj : Node) : List Event :=
  match CopyObjToNode newObj with
  | .error _ => []
  | .ok node =>
    if shouldReboot node && !rebootInProgress node then
      match annotationSet node AnnoRebootInProgress "yeah baby" with
      | none => [.panic]
      | some node =>
        let node := annotationDelete node AnnoRebootRequested
        let node := annotationDelete node AnnoRebootNow
        match client node with
        | some _ => [.update node]
        | none => [.update node, .reboot]
    else if rebootInProgress node then
      let node := annotationDelete node AnnoRebootInProgress
      match client node with
      | some _ => [.update node]
      | none => [.update node]
    else []

/-- The records passed to `Nodes().Update` in a trace, in call order. -/
def updatesIssued : List Event → List Node
  | [] => []
  | .update node :: rest => node :: updatesIssued rest
  | _ :: rest => updatesIssued rest

end RebootAgent

namespace RebootController

/-! ## Go maps -/

theorem goMapGet_delete (m : GoMap) (k k' : String) :
    goMapGet (goMapDelete m k) k' = if k' = k then none else goMapGet m k' := by
  induction m with
  | nil => simp [goMapDelete, goMapGet]
  | cons e rest ih =>
    obtain ⟨a, v⟩ := e
    by_cases h' : k' = k
    · subst h'
      by_cases h : a = k'
      · simpa [goMapDelete, h] using ih
      · simpa [goMapDelete, goMapGet, h] using ih
    · by_cases h : a = k
      · subst h
        have hne : ¬ a = k' := fun e => h' e.symm
        simp [goMapDelete, goMapGet, ih, h', hne]
      · by_cases h'' : a = k'
        · simp [goMapDelete, goMapGet, h, h'', h']
        · simp [goMapDelete, goMapGet, h, ih, h', h'']

theorem goMapGet_set (m : GoMap) (k v k' : String) :
    goMapGet (goMapSet m k v) k' = if k' = k then some v else goMapGet m k' := by
  by_cases h : k' = k
  · simp [goMapSet, goMapGet, h]
  · have : ¬ k = k' := fun e => h e.symm
    simp [goMapSet, goMapGet, h, this, goMapGet_delete]

theorem annotationGet_annotationDelete (n : Node) (k k' : String) :
    annotationGet (annotationDelete n k) k' = if k' = k then none else annotationGet n k' := by
  cases h : n.annotations with
  | none => simp [annotationGet, annotationDelete, h]
  | some m => simp [annotationGet, annotationDelete, h, goMapGet_delete]

theorem annotationGet_annotationSet (n n' : Node) (k v k' : String)
    (h : annotationSet n k v = some n') :
    annotationGet n' k' = if k' = k then some v else annotationGet n k' := by
  cases hm : n.annotations with
  | none => simp [annotationSet, hm] at h
  | some m =>
    simp [annotationSet, hm] at h
    subst h
    simp [annotationGet, hm, goMapGet_set]

/-! ## The admission count -/

theorem nodeIsRebooting_eq (n : Node) :
    nodeIsRebooting n =
      (annotationPresent n AnnoRebootInProgress || annotationPresent n AnnoRebootNow) := by
  cases h : n.annotations with
  | none => simp [nodeIsRebooting, annotationPresent, annotationGet, h]
  | some m =>
    cases h1 : goMapGet m AnnoRebootInProgress <;>
      simp [nodeIsRebooting, annotationPresent, annotationGet, h, h1]

theorem countConditions_add (cs : List NodeCondition) (u : Nat) :
    countConditions cs u = u + countConditions cs 0 := by
  induction cs generalizing u with
  | nil => simp [countConditions]
  | cons c rest ih =>
    by_cases h : c.type = NodeReady ∧ c.status = ConditionFalse
    · simp only [countConditions, h, and_self, if_true]
      rw [ih (u + 1), ih (0 + 1)]
      omega
    · simp only [countConditions, h, if_false]
      exact ih u

theorem countNodes_add (ns : List Node) (u : Nat) :
    countNodes ns u = u + countNodes ns 0 := by
  induction ns generalizing u with
  | nil => simp [countNodes]
  | cons n rest ih =>
    by_cases h : nodeIsRebooting n = true
    · simp only [countNodes, h, if_true]
      rw [ih (u + 1), ih (0 + 1)]
      omega
    · have h' : nodeIsRebooting n = false := by simpa using h
      simp only [countNodes, h', Bool.false_eq_true, if_false]
      rw [ih (countConditions n.conditions u), ih (countConditions n.conditions 0),
        countConditions_add n.conditions u]
      omega

theorem countNodes_cons (n : Node) (ns : List Node) :
    countNodes (n :: ns) 0 = nodeContribution n + countNodes ns 0 := by
  by_cases h : nodeIsRebooting n = true
  · simp only [nodeContribution, countNodes, h, if_true]
    rw [countNodes_add ns (0 + 1)]
  · have h' : nodeIsRebooting n = false := by simpa using h
    simp only [nodeContribution, countNodes, h', Bool.false_eq_true, if_false]
    rw [countNodes_add ns (countConditions n.conditions 0)]

theorem nodeContribution_rebooting (n : Node) (h : nodeIsRebooting n = true) :
    nodeContribution n = 1 := by
  simp [nodeContribution, countNodes, h]

theorem nodeContribution_le_of_mem (n : Node) (ns : List Node) (h : n ∈ ns) :
    nodeContribution n ≤ countNodes ns 0 := by
  induction ns with
  | nil => simp at h
  | cons a rest ih =>
    rw [countNodes_cons]
    rcases List.mem_cons.mp h with h | h
    · subst h
      omega
    · have := ih h
      omega

theorem countNodes_mirrorReplace_le (ns : List Node) (key : String) (new : Node) :
    countNodes (mirrorReplace ns key new) 0 ≤ countNodes ns 0 + nodeContribution new := by
  induction ns with
  | nil => simp [mirrorReplace, countNodes]
  | cons a rest ih =>
    by_cases h : a.name = key
    · simp only [mirrorReplace, h, if_true]
      rw [countNodes_cons, countNodes_cons]
      omega
    · simp only [mirrorReplace, h, if_false]
      rw [countNodes_cons, countNodes_cons]
      omega

theorem countConditions_pos_iff (cs : List NodeCondition) :
    0 < countConditions cs 0 ↔
      cs.any (fun c => c.type = NodeReady ∧ c.status = ConditionFalse) = true := by
  induction cs with
  | nil => simp [countConditions]
  | cons c rest ih =>
    by_cases h : c.type = NodeReady ∧ c.status = ConditionFalse
    · simp only [countConditions, h, and_self, if_true, List.any_cons, decide_True,
        Bool.true_or, iff_true]
      rw [countConditions_add]
      omega
    · simp only [countConditions, h, if_false, List.any_cons, decide_False, Bool.false_or]
      exact ih

theorem nodeContribution_pos_iff (n : Node) :
    0 < nodeContribution n ↔ specUnavailable n = true := by
  by_cases h : nodeIsRebooting n = true
  · have h' := h
    rw [nodeIsRebooting_eq] at h'
    simp [nodeContribution_rebooting n h, specUnavailable, h']
  · have hf : nodeIsRebooting n = false := by simpa using h
    have h' := hf
    rw [nodeIsRebooting_eq] at h'
    simp only [nodeContribution, countNodes, hf, Bool.false_eq_true, if_false, specUnavailable,
      h', Bool.false_or, readyConditionFalse]
    exact countConditions_pos_iff n.conditions

/-- The counter of `unavailableNodeCount` is never below the number of
unavailable machines. -/
theorem specUnavailableCount_le_countNodes (ns : List Node) :
    specUnavailableCount ns ≤ countNodes ns 0 := by
  induction ns with
  | nil => simp [specUnavailableCount, countNodes]
  | cons n rest ih =>
    rw [countNodes_cons]
    unfold specUnavailableCount at ih ⊢
    by_cases h : specUnavailable n = true
    · have := (nodeContribution_pos_iff n).mpr h
      simp only [List.filter_cons, h, if_true, List.length_cons]
      omega
    · have hf : specUnavailable n = false := by simpa using h
      simp only [List.filter_cons, hf, Bool.false_eq_true, if_false]
      omega

/-- The counter of `unavailableNodeCount` is 0 exactly when no machine of the
mirror is unavailable: against the bound 1 the two counts decide alike. -/
theorem countNodes_eq_zero_iff (ns : List Node) :
    countNodes ns 0 = 0 ↔ specUnavailableCount ns = 0 := by
  constructor
  · intro h
    have := specUnavailableCount_le_countNodes ns
    omega
  · induction ns with
    | nil => simp [countNodes]
    | cons n rest ih =>
      intro h
      rw [countNodes_cons]
      unfold specUnavailableCount at ih h
      by_cases hs : specUnavailable n = true
      · simp [List.filter_cons, hs] at h
      · have hf : specUnavailable n = false := by simpa using hs
        simp only [List.filter_cons, hf, Bool.false_eq_true, if_false] at h
        have h0 : ¬ 0 < nodeContribution n := fun hp => hs ((nodeContribution_pos_iff n).mp hp)
        have := ih h
        omega

/-! ## The lister -/

theorem listerGet_ok (ns : List Node) (key : String) (m : Node)
    (h : listerGet ns key = .ok m) : m ∈ ns ∧ m.name = key := by
  induction ns with
  | nil => simp [listerGet] at h
  | cons a rest ih =>
    by_cases ha : a.name = key
    · simp only [listerGet, ha, if_true, Except.ok.injEq] at h
      subst h
      exact ⟨List.mem_cons_self _ _, ha⟩
    · simp only [listerGet, ha, if_false] at h
      exact ⟨List.mem_cons_of_mem _ (ih h).1, (ih h).2⟩

theorem listerGet_not_found (ns : List Node) (key : String)
    (h : ∀ n ∈ ns, n.name ≠ key) : listerGet ns key = .error "not found" := by
  induction ns with
  | nil => rfl
  | cons a rest ih =>
    have ha : ¬ a.name = key := h a (List.mem_cons_self _ _)
    simp only [listerGet, ha, if_false]
    exact ih (fun n hn => h n (List.mem_cons_of_mem _ hn))

theorem listerGet_mirrorReplace (ns : List Node) (key : String) (m new : Node)
    (h : listerGet ns key = .ok m) (hname : new.name = key) :
    listerGet (mirrorReplace ns key new) key = .ok new ∧ new ∈ mirrorReplace ns key new := by
  induction ns with
  | nil => simp [listerGet] at h
  | cons a rest ih =>
    by_cases ha : a.name = key
    · simp [mirrorReplace, ha, listerGet, hname]
    · simp only [listerGet, ha, if_false] at h
      simp only [mirrorReplace, ha, if_false, listerGet]
      exact ⟨(ih h).1, List.mem_cons_of_mem _ (ih h).2⟩

/-! ## The controller's `process` -/

/-- The record `process` submits for the cached node `m` with annotations
`anns`. -/
theorem process_admit_eq (nodeLister : List Node) (client : Node → GoError) (key : String)
    (m : Node) (anns : GoMap) (hget : listerGet nodeLister key = .ok m)
    (hanns : m.annotations = some anns)
    (hreq : (goMapGet anns AnnoRebootRequested).isSome = true)
    (hcount : countNodes nodeLister 0 < maxUnavailable) :
    process nodeLister client key =
      ((match client { m with annotations := some (goMapSet anns AnnoRebootNow "") } with
        | some err => .returned (some (.updateFailed err))
        | none => .returned none),
       [{ m with annotations := some (goMapSet anns AnnoRebootNow "") }]) := by
  have hnone : (goMapGet anns AnnoRebootRequested).isNone = false := by
    cases hv : goMapGet anns AnnoRebootRequested <;> simp [hv] at hreq ⊢
  have hge : ¬ countNodes nodeLister 0 ≥ maxUnavailable := by omega
  simp only [process, hget, hanns, hnone, unavailableNodeCount, listerList, hge, CopyObjToNode,
    annotationSet]
  cases client { m with annotations := some (goMapSet anns AnnoRebootNow "") } <;> simp

/-- Every record `process` submits comes from the admission branch. -/
theorem process_update_inv (nodeLister : List Node) (client : Node → GoError) (key : String)
    (upd : Node) (h : upd ∈ (process nodeLister client key).2) :
    ∃ m anns, listerGet nodeLister key = .ok m ∧ m.annotations = some anns ∧
      (goMapGet anns AnnoRebootRequested).isSome = true ∧
      countNodes nodeLister 0 < maxUnavailable ∧
      upd = { m with annotations := some (goMapSet anns AnnoRebootNow "") } := by
  cases hget : listerGet nodeLister key with
  | error e => simp [process, hget] at h
  | ok m =>
    cases hanns : m.annotations with
    | none => simp [process, hget, hanns] at h
    | some anns =>
      cases hv : goMapGet anns AnnoRebootRequested with
      | none => simp [process, hget, hanns, hv] at h
      | some v =>
        by_cases hge : countNodes nodeLister 0 ≥ maxUnavailable
        · simp [process, hget, hanns, hv, unavailableNodeCount, listerList, hge] at h
        · have hlt : countNodes nodeLister 0 < maxUnavailable := by omega
          have hreq : (goMapGet anns AnnoRebootRequested).isSome = true := by simp [hv]
          rw [process_admit_eq nodeLister client key m anns hget hanns hreq hlt] at h
          simp only [List.mem_singleton] at h
          exact ⟨m, anns, rfl, hanns, hreq, hlt, h⟩

/-- What `process` returns when the admission bound is reached. -/
theorem process_deny_eq (nodeLister : List Node) (client : Node → GoError) (key : String)
    (m : Node) (anns : GoMap) (hget : listerGet nodeLister key = .ok m)
    (hanns : m.annotations = some anns)
    (hreq : (goMapGet anns AnnoRebootRequested).isSome = true)
    (hcount : countNodes nodeLister 0 ≥ maxUnavailable) :
    process nodeLister client key =
      (.returned (some (.tooManyUnavailable (countNodes nodeLister 0) maxUnavailable m.name)),
       []) := by
  have hnone : (goMapGet anns AnnoRebootRequested).isNone = false := by
    cases hv : goMapGet anns AnnoRebootRequested <;> simp [hv] at hreq ⊢
  simp [process, hget, hanns, hnone, unavailableNodeCount, listerList, hcount]

theorem annotationPresent_some (m : Node) (k : String) (h : annotationPresent m k = true) :
    ∃ anns, m.annotations = some anns ∧ (goMapGet anns k).isSome = true := by
  cases hm : m.annotations with
  | none => simp [annotationPresent, annotationGet, hm] at h
  | some anns => exact ⟨anns, rfl, by simpa [annotationPresent, annotationGet, hm] using h⟩

theorem unavailableNodeCount_eq (nodeLister : List Node) :
    unavailableNodeCount nodeLister = .ok (countNodes nodeLister 0) := rfl

theorem rebootNow_ne_rebootRequested : AnnoRebootRequested ≠ AnnoRebootNow := by decide

/-! ## Claims about the controller -/

/-- C1, as the claim states it, fails: with one machine `a` that carries
`reboot-requested` and an unavailable count of 0, below `maxUnavailable`, the
record `process` submits still has `reboot-requested` present. -/
theorem process_admit_keeps_reboot_requested :
    listerGet [⟨"a", some [("reboot-requested", "")], []⟩] "a"
        = .ok ⟨"a", some [("reboot-requested", "")], []⟩ ∧
      annotationPresent ⟨"a", some [("reboot-requested", "")], []⟩ AnnoRebootRequested = true ∧
      unavailableNodeCount [⟨"a", some [("reboot-requested", "")], []⟩] = .ok 0 ∧
      0 < maxUnavailable ∧
      ¬ ∃ upd, (process [⟨"a", some [("reboot-requested", "")], []⟩] (fun _ => none) "a").2
            = [upd] ∧
          annotationPresent upd AnnoRebootNow = true ∧
          annotationPresent upd AnnoRebootRequested = false := by
  refine ⟨by decide, by decide, by decide, by decide, ?_⟩
  rintro ⟨upd, h, -, h2⟩
  have e : (process [⟨"a", some [("reboot-requested", "")], []⟩] (fun _ => none) "a").2
      = [⟨"a", some [("reboot-now", ""), ("reboot-requested", "")], []⟩] := by decide
  rw [e] at h
  simp only [List.cons.injEq, and_true] at h
  subst h
  revert h2
  decide

/-- C1 (amended): for every mirror and every key whose machine `m` is in the
mirror with `reboot-requested` present, if the unavailable count over the
mirror is below `maxUnavailable` then `process` issues exactly one Update, and
the record it submits is `m` with `reboot-now` set to the empty string and
every other annotation as it was, `reboot-requested` still present. -/
theorem process_admit_sets_reboot_now (nodeLister : List Node) (client : Node → GoError)
    (key : String) (m : Node) (u : Nat)
    (hget : listerGet nodeLister key = .ok m)
    (hreq : annotationPresent m AnnoRebootRequested = true)
    (hcount : unavailableNodeCount nodeLister = .ok u) (hlt : u < maxUnavailable) :
    ∃ upd, (process nodeLister client key).2 = [upd] ∧
      upd.name = m.name ∧ upd.conditions = m.conditions ∧
      annotationGet upd AnnoRebootNow = some "" ∧
      (∀ k, k ≠ AnnoRebootNow → annotationGet upd k = annotationGet m k) ∧
      annotationPresent upd AnnoRebootRequested = true := by
  obtain ⟨anns, hanns, hsome⟩ := annotationPresent_some m _ hreq
  rw [unavailableNodeCount_eq] at hcount
  simp only [Except.ok.injEq] at hcount
  subst hcount
  refine ⟨{ m with annotations := some (goMapSet anns AnnoRebootNow "") }, ?_, rfl, rfl, ?_, ?_, ?_⟩
  · rw [process_admit_eq nodeLister client key m anns hget hanns hsome hlt]
  · simp [annotationGet, goMapGet_set]
  · intro k hk
    simp [annotationGet, goMapGet_set, hk, hanns]
  · simpa [annotationPresent, annotationGet, goMapGet_set, rebootNow_ne_rebootRequested] using hsome

/-- Witness of C1 (amended) on a mirror of two machines. -/
theorem process_admit_sets_reboot_now_witness :
    ∃ upd, (process [⟨"b", none, []⟩, ⟨"a", some [("zone", "x"), ("reboot-requested", "")], []⟩]
          (fun _ => none) "a").2 = [upd] ∧
      upd.name = "a" ∧ upd.conditions = [] ∧
      annotationGet upd AnnoRebootNow = some "" ∧
      (∀ k, k ≠ AnnoRebootNow → annotationGet upd k
          = annotationGet ⟨"a", some [("zone", "x"), ("reboot-requested", "")], []⟩ k) ∧
      annotationPresent upd AnnoRebootRequested = true :=
  process_admit_sets_reboot_now
    [⟨"b", none, []⟩, ⟨"a", some [("zone", "x"), ("reboot-requested", "")], []⟩]
    (fun _ => none) "a" ⟨"a", some [("zone", "x"), ("reboot-requested", "")], []⟩ 0
    (by decide) (by decide) (by decide) (by decide)

/-- C2: for every mirror and every key, if `process` issues an Update with the
record `upd` (which sets `reboot-now` on the machine of that key), then
`unavailableNodeCount` over the mirror in which that machine is replaced by
`upd` succeeds with a count of at most `maxUnavailable`. -/
theorem process_update_within_bound (nodeLister : List Node) (client : Node → GoError)
    (key : String) (upd : Node) (h : upd ∈ (process nodeLister client key).2) :
    annotationPresent upd AnnoRebootNow = true ∧
      ∃ c, unavailableNodeCount (mirrorReplace nodeLister key upd) = .ok c ∧
        c ≤ maxUnavailable := by
  obtain ⟨m, anns, -, -, -, hlt, hupd⟩ := process_update_inv nodeLister client key upd h
  have hnow : annotationPresent upd AnnoRebootNow = true := by
    subst hupd
    simp [annotationPresent, annotationGet, goMapGet_set]
  have hreb : nodeIsRebooting upd = true := by
    rw [nodeIsRebooting_eq, hnow]
    simp
  refine ⟨hnow, countNodes (mirrorReplace nodeLister key upd) 0, rfl, ?_⟩
  have h1 := countNodes_mirrorReplace_le nodeLister key upd
  rw [nodeContribution_rebooting upd hreb] at h1
  omega

/-- Witness of C2: machine `a` is admitted while `b` is idle. -/
theorem process_update_within_bound_witness :
    (⟨"a", some [("reboot-now", ""), ("reboot-requested", "")], []⟩ : Node) ∈
        (process [⟨"b", none, []⟩, ⟨"a", some [("reboot-requested", "")], []⟩]
          (fun _ => none) "a").2 ∧
      annotationPresent ⟨"a", some [("reboot-now", ""), ("reboot-requested", "")], []⟩
        AnnoRebootNow = true ∧
      ∃ c, unavailableNodeCount (mirrorReplace
            [⟨"b", none, []⟩, ⟨"a", some [("reboot-requested", "")], []⟩] "a"
            ⟨"a", some [("reboot-now", ""), ("reboot-requested", "")], []⟩) = .ok c ∧
        c ≤ maxUnavailable :=
  ⟨by decide,
   process_update_within_bound
    [⟨"b", none, []⟩, ⟨"a", some [("reboot-requested", "")], []⟩] (fun _ => none) "a"
    ⟨"a", some [("reboot-now", ""), ("reboot-requested", "")], []⟩ (by decide)⟩

/-- C3: for every mirror and every key whose machine `m` has `reboot-requested`
present, if the unavailable count over the mirror is at least
`maxUnavailable` then `process` returns the too-many-unavailable error and
issues no Update. -/
theorem process_denies_at_bound (nodeLister : List Node) (client : Node → GoError)
    (key : String) (m : Node) (u : Nat)
    (hget : listerGet nodeLister key = .ok m)
    (hreq : annotationPresent m AnnoRebootRequested = true)
    (hcount : unavailableNodeCount nodeLister = .ok u) (hge : u ≥ maxUnavailable) :
    process nodeLister client key =
      (.returned (some (.tooManyUnavailable u maxUnavailable m.name)), []) := by
  obtain ⟨anns, hanns, hsome⟩ := annotationPresent_some m _ hreq
  rw [unavailableNodeCount_eq] at hcount
  simp only [Except.ok.injEq] at hcount
  subst hcount
  exact process_deny_eq nodeLister client key m anns hget hanns hsome hge

/-- Witness of C3: `a` asks for a reboot while `b` is rebooting. -/
theorem process_denies_at_bound_witness :
    process [⟨"b", some [("reboot-in-progress", "yeah baby")], []⟩,
        ⟨"a", some [("reboot-requested", "")], []⟩] (fun _ => none) "a" =
      (.returned (some (.tooManyUnavailable 1 maxUnavailable "a")), []) :=
  process_denies_at_bound
    [⟨"b", some [("reboot-in-progress", "yeah baby")], []⟩,
      ⟨"a", some [("reboot-requested", "")], []⟩]
    (fun _ => none) "a" ⟨"a", some [("reboot-requested", "")], []⟩ 1
    (by decide) (by decide) (by decide) (by decide)

/-- C7, as the claim states it, fails: on the empty mirror the key `a` names no
machine, yet `process` does not return success, and `handleErr` then
re-enqueues the key instead of forgetting it. -/
theorem process_missing_key_not_success :
    (∀ n ∈ ([] : List Node), n.name ≠ "a") ∧
      (process [] (fun _ => none) "a").1 ≠ .returned none ∧
      (handleErr Queue.fresh (some (.retrieveFailed "a" "not found")) "a").calls
        ≠ [.forget "a"] := by
  refine ⟨by simp, by decide, by decide⟩

/-- C7 (amended): for every key that names no machine in the controller's
mirror, `process` returns the failed-to-retrieve error and issues no Update,
and `handleErr` on that error, while the key's requeue count is below 5,
re-enqueues the key with `AddRateLimited` and does not call `Forget`. -/
theorem process_missing_key_is_error (nodeLister : List Node) (client : Node → GoError)
    (key : String) (q : Queue) (hmissing : ∀ n ∈ nodeLister, n.name ≠ key)
    (hq : q.numRequeues key < 5) :
    process nodeLister client key =
        (.returned (some (.retrieveFailed key "not found")), []) ∧
      (handleErr q (some (.retrieveFailed key "not found")) key).calls
        = q.calls ++ [.addRateLimited key] ∧
      (handleErr q (some (.retrieveFailed key "not found")) key).numRequeues key
        = q.numRequeues key + 1 := by
  refine ⟨?_, ?_, ?_⟩
  · simp [process, listerGet_not_found nodeLister key hmissing]
  · simp [handleErr, hq, Queue.AddRateLimited]
  · simp [handleErr, hq, Queue.AddRateLimited]

/-- Witness of C7 (amended): the key `c` on a mirror holding `a` and `b`. -/
theorem process_missing_key_is_error_witness :
    process [⟨"a", none, []⟩, ⟨"b", none, []⟩] (fun _ => none) "c" =
        (.returned (some (.retrieveFailed "c" "not found")), []) ∧
      (handleErr Queue.fresh (some (.retrieveFailed "c" "not found")) "c").calls
        = Queue.fresh.calls ++ [.addRateLimited "c"] ∧
      (handleErr Queue.fresh (some (.retrieveFailed "c" "not found")) "c").numRequeues "c"
        = Queue.fresh.numRequeues "c" + 1 :=
  process_missing_key_is_error [⟨"a", none, []⟩, ⟨"b", none, []⟩] (fun _ => none) "c"
    Queue.fresh (by decide) (by decide)

/-! ## Claims about `handleErr` -/

theorem failedAttempts_below_ceiling (errs : Nat → ProcessError) (key : String) (q : Queue)
    (h0 : q.numRequeues key = 0) (n : Nat) (hn : n ≤ 5) :
    (failedAttempts errs key n q).numRequeues key = n ∧
      (failedAttempts errs key n q).calls
        = q.calls ++ List.replicate n (.addRateLimited key) := by
  induction n with
  | zero => simp [failedAttempts, h0]
  | succ n ih =>
    obtain ⟨hnum, hcalls⟩ := ih (by omega)
    have hlt : (failedAttempts errs key n q).numRequeues key < 5 := by omega
    have hstep : failedAttempts errs key (n + 1) q
        = (failedAttempts errs key n q).AddRateLimited key := by
      simp only [failedAttempts, handleErr, hlt, if_true]
    rw [hstep]
    simp [Queue.AddRateLimited, hnum, hcalls, List.replicate_succ']

/-- C8, as the claim states it, fails: after four consecutive failures of a
key that started with requeue count 0, the fifth failure calls
`AddRateLimited`, not `Forget`. -/
theorem handleErr_fifth_failure_requeues :
    Queue.fresh.numRequeues "a" = 0 ∧
      (failedAttempts (fun _ => .updateFailed "conflict") "a" 5 Queue.fresh).calls
        = [.addRateLimited "a", .addRateLimited "a", .addRateLimited "a",
            .addRateLimited "a", .addRateLimited "a"] ∧
      (failedAttempts (fun _ => .updateFailed "conflict") "a" 5 Queue.fresh).calls
        ≠ [.addRateLimited "a", .addRateLimited "a", .addRateLimited "a",
            .addRateLimited "a", .forget "a"] := by
  refine ⟨by decide, by decide, by decide⟩

/-- C8 (amended): over a queue in which `AddRateLimited` increments the key's
requeue counter and `Forget` resets it to 0, for every key starting with
requeue count 0 whose reconcile fails on every attempt, `handleErr` re-enqueues
the key (`AddRateLimited`) on each of the first five consecutive failures and,
on the sixth consecutive failure, calls `Forget`, resets the counter and does
not re-enqueue it; on a successful reconcile `handleErr` calls `Forget` and
never `AddRateLimited`. -/
theorem handleErr_retry_ceiling (errs : Nat → ProcessError) (key : String) (q : Queue)
    (h0 : q.numRequeues key = 0) :
    (∀ n, n ≤ 5 → (failedAttempts errs key n q).calls
        = q.calls ++ List.replicate n (.addRateLimited key)) ∧
      (failedAttempts errs key 6 q).calls
        = q.calls ++ List.replicate 5 (.addRateLimited key) ++ [.forget key] ∧
      (failedAttempts errs key 6 q).numRequeues key = 0 ∧
      (∀ (q' : Queue) (key' : String),
        (handleErr q' none key').calls = q'.calls ++ [.forget key'] ∧
        (handleErr q' none key').numRequeues key' = 0) := by
  refine ⟨fun n hn => (failedAttempts_below_ceiling errs key q h0 n hn).2, ?_, ?_, ?_⟩
  · obtain ⟨hnum, hcalls⟩ := failedAttempts_below_ceiling errs key q h0 5 (by omega)
    have hge : ¬ (failedAttempts errs key 5 q).numRequeues key < 5 := by omega
    show (handleErr (failedAttempts errs key 5 q) (some (errs 5)) key).calls = _
    simp only [handleErr, hge, if_false, Queue.Forget, hcalls]
  · obtain ⟨hnum, -⟩ := failedAttempts_below_ceiling errs key q h0 5 (by omega)
    have hge : ¬ (failedAttempts errs key 5 q).numRequeues key < 5 := by omega
    show (handleErr (failedAttempts errs key 5 q) (some (errs 5)) key).numRequeues key = 0
    simp only [handleErr, hge, if_false, Queue.Forget, if_true]
  · intro q' key'
    simp [handleErr, Queue.Forget]

/-- Witness of C8 (amended) on a fresh queue. -/
theorem handleErr_retry_ceiling_witness :
    (failedAttempts (fun _ => .updateFailed "conflict") "a" 6 Queue.fresh).calls
      = Queue.fresh.calls ++ List.replicate 5 (.addRateLimited "a") ++ [.forget "a"] :=
  (handleErr_retry_ceiling (fun _ => .updateFailed "conflict") "a" Queue.fresh
    (by decide)).2.1

/-! ## Claims about `unavailableNodeCount` -/

/-- C9 fails on the code: a mirror of one machine with no annotations and two
Ready conditions of status False makes `unavailableNodeCount` return 2, while
one machine is unavailable and the mirror holds one machine. -/
theorem unavailableNodeCount_counts_conditions_twice :
    unavailableNodeCount [⟨"a", none, [⟨"Ready", "False"⟩, ⟨"Ready", "False"⟩]⟩] = .ok 2 ∧
      specUnavailableCount [⟨"a", none, [⟨"Ready", "False"⟩, ⟨"Ready", "False"⟩]⟩] = 1 ∧
      List.length [(⟨"a", none, [⟨"Ready", "False"⟩, ⟨"Ready", "False"⟩]⟩ : Node)] = 1 := by
  decide

/-! ## Reconciling an admitted machine again -/

/-- C10, as the claim states it, fails: after `process` admits `a`, running it
again on the mirror holding the updated record issues no Update but returns
the too-many-unavailable error, not success. -/
theorem process_again_not_success :
    process [⟨"a", some [("reboot-requested", "")], []⟩] (fun _ => none) "a"
        = (.returned none, [⟨"a", some [("reboot-now", ""), ("reboot-requested", "")], []⟩]) ∧
      process (mirrorReplace [⟨"a", some [("reboot-requested", "")], []⟩] "a"
          ⟨"a", some [("reboot-now", ""), ("reboot-requested", "")], []⟩) (fun _ => none) "a"
        = (.returned (some (.tooManyUnavailable 1 1 "a")), []) ∧
      (process (mirrorReplace [⟨"a", some [("reboot-requested", "")], []⟩] "a"
          ⟨"a", some [("reboot-now", ""), ("reboot-requested", "")], []⟩) (fun _ => none) "a").1
        ≠ .returned none := by
  decide

/-- C10 (amended): for every mirror and key where `process` admits machine `m`
(issues the Update and returns success), running `process` for that key again
on the mirror in which `m` is replaced by the updated record issues no Update
and returns the too-many-unavailable error: the updated record still has
`reboot-requested` and, carrying `reboot-now`, is itself counted as
unavailable. -/
theorem process_again_is_denied (nodeLister : List Node) (client client' : Node → GoError)
    (key : String) (upd : Node)
    (h : process nodeLister client key = (.returned none, [upd])) :
    annotationPresent upd AnnoRebootRequested = true ∧
      ∃ u, u ≥ maxUnavailable ∧
        process (mirrorReplace nodeLister key upd) client' key =
          (.returned (some (.tooManyUnavailable u maxUnavailable upd.name)), []) := by
  have hmem : upd ∈ (process nodeLister client key).2 := by simp [h]
  obtain ⟨m, anns, hget, hanns, hreq, -, hupd⟩ :=
    process_update_inv nodeLister client key upd hmem
  have hname : upd.name = key := by
    rw [hupd]
    exact (listerGet_ok nodeLister key m hget).2
  have hanns' : upd.annotations = some (goMapSet anns AnnoRebootNow "") := by rw [hupd]
  have hreq' : (goMapGet (goMapSet anns AnnoRebootNow "") AnnoRebootRequested).isSome = true := by
    simpa [goMapGet_set, rebootNow_ne_rebootRequested] using hreq
  obtain ⟨hget', hin⟩ := listerGet_mirrorReplace nodeLister key m upd hget hname
  have hreb : nodeIsRebooting upd = true := by
    rw [nodeIsRebooting_eq]
    simp [annotationPresent, annotationGet, hanns', goMapGet_set]
  have hge : countNodes (mirrorReplace nodeLister key upd) 0 ≥ maxUnavailable := by
    have := nodeContribution_le_of_mem upd _ hin
    rw [nodeContribution_rebooting upd hreb] at this
    exact this
  refine ⟨?_, countNodes (mirrorReplace nodeLister key upd) 0, hge, ?_⟩
  · simpa [annotationPresent, annotationGet, hanns'] using hreq'
  · exact process_deny_eq _ client' key upd _ hget' hanns' hreq' hge

/-- Witness of C10 (amended): `a` is admitted, then reconciled again. -/
theorem process_again_is_denied_witness :
    annotationPresent ⟨"a", some [("reboot-now", ""), ("reboot-requested", "")], []⟩
        AnnoRebootRequested = true ∧
      ∃ u, u ≥ maxUnavailable ∧
        process (mirrorReplace [⟨"b", none, []⟩, ⟨"a", some [("reboot-requested", "")], []⟩] "a"
            ⟨"a", some [("reboot-now", ""), ("reboot-requested", "")], []⟩) (fun _ => none) "a" =
          (.returned (some (.tooManyUnavailable u maxUnavailable
            (Node.mk "a" (some [("reboot-now", ""), ("reboot-requested", "")]) []).name)), []) :=
  process_again_is_denied [⟨"b", none, []⟩, ⟨"a", some [("reboot-requested", "")], []⟩]
    (fun _ => none) (fun _ => none) "a"
    ⟨"a", some [("reboot-now", ""), ("reboot-requested", "")], []⟩ (by decide)

end RebootController

namespace RebootAgent

open RebootController

/-! ## The agent's `handleUpdate` -/

/-- The record the reboot branch of `handleUpdate` submits for `node`. -/
theorem handleUpdate_reboot_eq (client : Node → GoError) (oldObj node : Node) (anns : GoMap)
    (hanns : node.annotations = some anns)
    (hnow : shouldReboot node = true) (hprog : rebootInProgress node = false) :
    handleUpdate client oldObj node =
      match client (annotationDelete (annotationDelete
          { node with annotations := some (goMapSet anns AnnoRebootInProgress "yeah baby") }
          AnnoRebootRequested) AnnoRebootNow) with
      | some _ => [.update (annotationDelete (annotationDelete
          { node with annotations := some (goMapSet anns AnnoRebootInProgress "yeah baby") }
          AnnoRebootRequested) AnnoRebootNow)]
      | none => [.update (annotationDelete (annotationDelete
          { node with annotations := some (goMapSet anns AnnoRebootInProgress "yeah baby") }
          AnnoRebootRequested) AnnoRebootNow), .reboot] := by
  simp [handleUpdate, CopyObjToNode, hnow, hprog, annotationSet, hanns]

/-- The trace of the clearing branch of `handleUpdate`. -/
theorem handleUpdate_clear_eq (client : Node → GoError) (oldObj node : Node)
    (hprog : rebootInProgress node = true) :
    handleUpdate client oldObj node = [.update (annotationDelete node AnnoRebootInProgress)] := by
  simp only [handleUpdate, CopyObjToNode, hprog, Bool.not_true, Bool.and_false,
    Bool.false_eq_true, if_false, if_true]
  cases client (annotationDelete node AnnoRebootInProgress) <;> rfl

theorem handleUpdate_idle_eq (client : Node → GoError) (oldObj node : Node)
    (hnow : shouldReboot node = false) (hprog : rebootInProgress node = false) :
    handleUpdate client oldObj node = [] := by
  simp [handleUpdate, CopyObjToNode, hnow, hprog]

/-! ## Claims about the agent -/

/-- C4: for every machine record with `reboot-now` present and
`reboot-in-progress` absent, `handleUpdate` issues exactly one Update, whose
record has `reboot-in-progress` present and both `reboot-now` and
`reboot-requested` absent, with every other annotation, the name and the
conditions unchanged. -/
theorem handleUpdate_marks_in_progress (client : Node → GoError) (oldObj node : Node)
    (hnow : annotationPresent node AnnoRebootNow = true)
    (hprog : annotationPresent node AnnoRebootInProgress = false) :
    ∃ upd, updatesIssued (handleUpdate client oldObj node) = [upd] ∧
      upd.name = node.name ∧ upd.conditions = node.conditions ∧
      annotationGet upd AnnoRebootInProgress = some "yeah baby" ∧
      annotationGet upd AnnoRebootNow = none ∧
      annotationGet upd AnnoRebootRequested = none ∧
      (∀ k, k ≠ AnnoRebootInProgress → k ≠ AnnoRebootNow → k ≠ AnnoRebootRequested →
        annotationGet upd k = annotationGet node k) := by
  obtain ⟨anns, hanns, -⟩ := annotationPresent_some node _ hnow
  refine ⟨annotationDelete (annotationDelete
      { node with annotations := some (goMapSet anns AnnoRebootInProgress "yeah baby") }
      AnnoRebootRequested) AnnoRebootNow, ?_, rfl, rfl, ?_, ?_, ?_, ?_⟩
  · rw [handleUpdate_reboot_eq client oldObj node anns hanns hnow hprog]
    cases client (annotationDelete (annotationDelete
      { node with annotations := some (goMapSet anns AnnoRebootInProgress "yeah baby") }
      AnnoRebootRequested) AnnoRebootNow) <;> rfl
  · have h1 : AnnoRebootInProgress ≠ AnnoRebootNow := by decide
    have h2 : AnnoRebootInProgress ≠ AnnoRebootRequested := by decide
    rw [annotationGet_annotationDelete, annotationGet_annotationDelete, if_neg h1, if_neg h2]
    simp [annotationGet, goMapGet_set]
  · simp [annotationGet_annotationDelete]
  · have h1 : AnnoRebootRequested ≠ AnnoRebootNow := by decide
    simp [annotationGet_annotationDelete, h1]
  · intro k hk1 hk2 hk3
    rw [annotationGet_annotationDelete, annotationGet_annotationDelete, if_neg hk2, if_neg hk3]
    simp [annotationGet, goMapGet_set, hk1, hanns]

/-- Witness of C4: a machine admitted by the controller. -/
theorem handleUpdate_marks_in_progress_witness :
    ∃ upd, updatesIssued (handleUpdate (fun _ => none) ⟨"a", none, []⟩
          ⟨"a", some [("reboot-now", ""), ("reboot-requested", ""), ("zone", "x")], []⟩) = [upd] ∧
      upd.name = "a" ∧ upd.conditions = [] ∧
      annotationGet upd AnnoRebootInProgress = some "yeah baby" ∧
      annotationGet upd AnnoRebootNow = none ∧
      annotationGet upd AnnoRebootRequested = none ∧
      (∀ k, k ≠ AnnoRebootInProgress → k ≠ AnnoRebootNow → k ≠ AnnoRebootRequested →
        annotationGet upd k = annotationGet
          ⟨"a", some [("reboot-now", ""), ("reboot-requested", ""), ("zone", "x")], []⟩ k) :=
  handleUpdate_marks_in_progress (fun _ => none) ⟨"a", none, []⟩
    ⟨"a", some [("reboot-now", ""), ("reboot-requested", ""), ("zone", "x")], []⟩
    (by decide) (by decide)

/-- C5: for every machine record and every outcome of the Update call,
`handleUpdate` reaches the reboot point only after exactly one Update, whose
record carries `reboot-in-progress` and which returned no error; and when an
Update it issued fails, the trace is that single Update: no reboot point and
no further Update. -/
theorem handleUpdate_reboot_after_update (client : Node → GoError) (oldObj node : Node) :
    (Event.reboot ∈ handleUpdate client oldObj node →
        ∃ upd, handleUpdate client oldObj node = [.update upd, .reboot] ∧
          annotationPresent upd AnnoRebootInProgress = true ∧ client upd = none) ∧
      (∀ upd, Event.update upd ∈ handleUpdate client oldObj node → client upd ≠ none →
        handleUpdate client oldObj node = [.update upd]) := by
  by_cases hprog : rebootInProgress node = true
  · rw [handleUpdate_clear_eq client oldObj node hprog]
    refine ⟨by simp, ?_⟩
    intro upd hmem _
    simp only [List.mem_singleton, Event.update.injEq] at hmem
    rw [hmem]
  · have hprog' : rebootInProgress node = false := by simpa using hprog
    by_cases hnow : shouldReboot node = true
    · obtain ⟨anns, hanns, -⟩ := annotationPresent_some node _ hnow
      rw [handleUpdate_reboot_eq client oldObj node anns hanns hnow hprog']
      have hin : annotationPresent (annotationDelete (annotationDelete
          { node with annotations := some (goMapSet anns AnnoRebootInProgress "yeah baby") }
          AnnoRebootRequested) AnnoRebootNow) AnnoRebootInProgress = true := by
        have h1 : AnnoRebootInProgress ≠ AnnoRebootNow := by decide
        have h2 : AnnoRebootInProgress ≠ AnnoRebootRequested := by decide
        unfold annotationPresent
        rw [annotationGet_annotationDelete, annotationGet_annotationDelete, if_neg h1, if_neg h2]
        simp [annotationGet, goMapGet_set]
      cases hc : client (annotationDelete (annotationDelete
          { node with annotations := some (goMapSet anns AnnoRebootInProgress "yeah baby") }
          AnnoRebootRequested) AnnoRebootNow) with
      | none =>
        refine ⟨fun _ => ⟨_, rfl, hin, hc⟩, ?_⟩
        intro upd hmem hfail
        simp only [List.mem_cons, Event.update.injEq, List.mem_singleton, reduceCtorEq,
          List.not_mem_nil, or_false] at hmem
        rw [hmem] at hfail
        exact absurd hc hfail
      | some e =>
        refine ⟨by simp, ?_⟩
        intro upd hmem _
        simp only [List.mem_singleton, Event.update.injEq] at hmem
        rw [hmem]
    · have hnow' : shouldReboot node = false := by simpa using hnow
      rw [handleUpdate_idle_eq client oldObj node hnow' hprog']
      simp

/-- Witness of C5: the same record handled with an Update that succeeds and
with an Update that fails. -/
theorem handleUpdate_reboot_after_update_witness :
    (∃ upd, handleUpdate (fun _ => none) ⟨"a", none, []⟩ ⟨"a", some [("reboot-now", "")], []⟩
          = [.update upd, .reboot] ∧
        annotationPresent upd AnnoRebootInProgress = true ∧ (fun _ => none : Node → GoError) upd = none) ∧
      handleUpdate (fun _ => some "conflict") ⟨"a", none, []⟩
          ⟨"a", some [("reboot-now", "")], []⟩
        = [.update ⟨"a", some [("reboot-in-progress", "yeah baby")], []⟩] :=
  ⟨(handleUpdate_reboot_after_update (fun _ => none) ⟨"a", none, []⟩
      ⟨"a", some [("reboot-now", "")], []⟩).1
      (by decide),
   (handleUpdate_reboot_after_update (fun _ => some "conflict") ⟨"a", none, []⟩
      ⟨"a", some [("reboot-now", "")], []⟩).2
      ⟨"a", some [("reboot-in-progress", "yeah baby")], []⟩ (by decide) (by simp)⟩

/-- C6: for every machine record with `reboot-in-progress` present, with or
without `reboot-now`, `handleUpdate` issues exactly one Update, whose record is
the original with only `reboot-in-progress` removed, and it does not reach the
reboot point. -/
theorem handleUpdate_clears_in_progress (client : Node → GoError) (oldObj node : Node)
    (hprog : annotationPresent node AnnoRebootInProgress = true) :
    ∃ upd, handleUpdate client oldObj node = [.update upd] ∧
      Event.reboot ∉ handleUpdate client oldObj node ∧
      upd.name = node.name ∧ upd.conditions = node.conditions ∧
      annotationGet upd AnnoRebootInProgress = none ∧
      (∀ k, k ≠ AnnoRebootInProgress → annotationGet upd k = annotationGet node k) := by
  refine ⟨annotationDelete node AnnoRebootInProgress, ?_, ?_, rfl, rfl, ?_, ?_⟩
  · exact handleUpdate_clear_eq client oldObj node hprog
  · rw [handleUpdate_clear_eq client oldObj node hprog]
    simp
  · simp [annotationGet_annotationDelete]
  · intro k hk
    simp [annotationGet_annotationDelete, hk]

/-- Witness of C6: a record that carries both `reboot-in-progress` and
`reboot-now`. -/
theorem handleUpdate_clears_in_progress_witness :
    ∃ upd, handleUpdate (fun _ => none) ⟨"a", none, []⟩
          ⟨"a", some [("reboot-in-progress", "yeah baby"), ("reboot-now", "")], []⟩
        = [.update upd] ∧
      Event.reboot ∉ handleUpdate (fun _ => none) ⟨"a", none, []⟩
          ⟨"a", some [("reboot-in-progress", "yeah baby"), ("reboot-now", "")], []⟩ ∧
      upd.name = "a" ∧ upd.conditions = [] ∧
      annotationGet upd AnnoRebootInProgress = none ∧
      (∀ k, k ≠ AnnoRebootInProgress → annotationGet upd k = annotationGet
          ⟨"a", some [("reboot-in-progress", "yeah baby"), ("reboot-now", "")], []⟩ k) :=
  handleUpdate_clears_in_progress (fun _ => none) ⟨"a", none, []⟩
    ⟨"a", some [("reboot-in-progress", "yeah baby"), ("reboot-now", "")], []⟩ (by decide)

end RebootAgent
